import Mathlib

/-!
Verification of the mangatra detection-decode-and-replacement engine.

This file gives a shallow embedding of the core components implemented in
`src/detection.rs` and `src/replacer.rs` (with helpers from
`src/utils/image_conversion.rs` and callers in `src/handlers.rs`), and proves
or refutes the specified properties about them.

Modelling conventions:
* `f32` arithmetic is modelled over `ℚ`; every concrete value appearing in the
  statements is exactly representable in `f32`, and the Rust `as i32` cast is
  modelled by truncation toward zero (`truncQ`).
* `u32` arithmetic (used by `expand_text_region`) wraps modulo `2^32`, which is
  the behaviour of the compiled (release) binary; `wadd`/`wsub` make the
  wrap-around explicit.
* Images (`cv::core::Mat` / `image::ImageBuffer`) are modelled as a pair of
  dimensions together with a total pixel function; pixel values are abstract
  naturals.  `Mat::roi`, `vconcat` and `hconcat` fail (return `none`) exactly
  when OpenCV would reject the geometry.
* Loops are modelled with an explicit fuel argument large enough that the model
  agrees with the Rust loop on every input reachable from an `i32`-dimensioned
  image (the fuel `2^32` dominates the number of distinct `u32` states a walk
  can visit before its guard or bounds check stops it).
* The neural-network forward pass, OpenCV's `nms_boxes`, the OCR engine and
  the rusttype/imageproc glyph rasterizer are external collaborators (not in
  this repository); where a value of theirs is needed, it is an explicit
  parameter (e.g. the per-character advance-width function `cw` modelling
  `drawing::text_size`).
-/

namespace Mangatra

/-! ## Machine-integer models -/

/-- `2^32`, the modulus of `u32` arithmetic. -/
def U32MOD : Nat := 4294967296

/-- Wrapping `u32` addition. -/
def wadd (a b : Nat) : Nat := (a + b) % U32MOD

/-- Wrapping `u32` subtraction. -/
def wsub (a b : Nat) : Nat := (a % U32MOD + (U32MOD - b % U32MOD)) % U32MOD

/-- The Rust `as u32` cast from `i32` (bit-reinterpretation). -/
def i32ToU32 (n : Int) : Nat := (n % (U32MOD : Int)).toNat

/-- The Rust `as i32` cast from `u32` (bit-reinterpretation). -/
def u32ToI32 (n : Nat) : Int := if n < 2147483648 then (n : Int) else (n : Int) - (U32MOD : Int)

/-- The Rust `as i32` cast from `f32`, modelled on `ℚ`: truncation toward zero
(floor for nonnegative values, ceiling for negative ones). -/
def truncQ (q : ℚ) : ℤ := if 0 ≤ q then ⌊q⌋ else ⌈q⌉

/-! ## Detection decoder (src/detection.rs) -/

/-- `cv::core::Rect2i`: integer pixel rectangle with top-left origin. -/
structure Rect where
  x : Int
  y : Int
  width : Int
  height : Int
deriving DecidableEq, Repr

/-- `DEFAULT_PADDING` from src/lib.rs. -/
def DEFAULT_PADDING : Nat := 10

/-- Dimensions `(cols, rows)` of the image produced by `Detector::format_image`
(src/detection.rs lines 114-141): the input is padded with zeros on the right
or the bottom to a square whose side is the larger dimension. -/
def format_image_dims (cols rows : Nat) : Nat × Nat :=
  let m := max cols rows
  if m = rows ∧ m ≠ cols then (rows, rows)
  else if m = cols ∧ m ≠ rows then (cols, cols)
  else (cols, rows)

/-- First index holding the maximum of a list, scanning left to right and
updating only on a strictly larger value: this is how OpenCV's `min_max_loc`
reports the max location for the column vector built from the row
(src/detection.rs lines 164-175; `max_indx.to_vec2()[1]` is the row index). -/
def listArgmaxAux : List ℚ → Nat → Nat → ℚ → Nat
  | [], _, best, _ => best
  | a :: rest, i, best, bestVal =>
      if a > bestVal then listArgmaxAux rest (i + 1) i a
      else listArgmaxAux rest (i + 1) best bestVal

/-- First index of the maximum element (0 on the empty list). -/
def listArgmax : List ℚ → Nat
  | [] => 0
  | a :: rest => listArgmaxAux rest 1 0 a

/-- Conversion of one raw row `(cx, cy, w, h, …)` to an absolute pixel box
(src/detection.rs lines 180-190). -/
def decode_row (xFactor yFactor : ℚ) (row : List ℚ) : Rect :=
  let x := row.getD 0 0
  let y := row.getD 1 0
  let w := row.getD 2 0
  let h := row.getD 3 0
  { x := truncQ ((x - 1/2 * w) * xFactor)
    y := truncQ ((y - 1/2 * h) * yFactor)
    width := truncQ (w * xFactor)
    height := truncQ (h * yFactor) }

/-- The candidate-collection loop of `Detector::get_detections`
(src/detection.rs lines 157-193).  One row is kept when its objectness
`row[4]` is at least `0.4` and the entry at the `min_max_loc` maximum of the
*whole* row (`classes_scores` is `row.to_vec()`, i.e. all ten entries, not
just the class scores) exceeds `0.25`.  The subsequent `dnn::nms_boxes` call
is an external OpenCV routine and is not part of this embedding. -/
def get_detections_candidates (xFactor yFactor : ℚ) (rows : List (List ℚ)) :
    List (Rect × ℚ) :=
  rows.foldl
    (fun acc row =>
      let confidence := row.getD 4 0
      if confidence ≥ 2/5 then
        let classId := listArgmax row
        if row.getD classId 0 > 1/4 then
          acc ++ [(decode_row xFactor yFactor row, confidence)]
        else acc
      else acc)
    []

/-- The factors used by `Detector::run_inference`: `get_detections` receives
the *letterboxed* image returned by `format_image` (src/detection.rs lines
38, 63, 151-155), so both factors come from the square side. -/
def run_inference_factors (origWidth origHeight : Nat) : ℚ × ℚ :=
  let dims := format_image_dims origWidth origHeight
  ((dims.1 : ℚ) / 640, (dims.2 : ℚ) / 640)

/-- Candidate decoding as performed end-to-end by `run_inference` +
`get_detections` for an original image of the given dimensions. -/
def detector_candidates (origWidth origHeight : Nat) (rows : List (List ℚ)) :
    List (Rect × ℚ) :=
  let f := run_inference_factors origWidth origHeight
  get_detections_candidates f.1 f.2 rows

/-- Box decoding with the factors actually used by the code for an original
image of the given dimensions. -/
def detector_decode (origWidth origHeight : Nat) (row : List ℚ) : Rect :=
  let f := run_inference_factors origWidth origHeight
  decode_row f.1 f.2 row

/-- The padding step in the `run_inference` output loop
(src/detection.rs lines 87-108): the box is padded symmetrically by `p` when
the stated four conditions hold, otherwise returned unchanged. -/
def pad_box (p : Int) (imgWidth imgHeight : Int) (b : Rect) : Rect :=
  if b.width + p * 2 < imgWidth ∧ b.height + p * 2 < imgHeight ∧
      b.x - p > 0 ∧ b.y - p > 0 then
    { x := b.x - p, y := b.y - p, width := b.width + p * 2, height := b.height + p * 2 }
  else b

/-! Spec-side definitions, transcribed from the specification's words, used
only to compare against the code-side definitions above. -/

/-- Per the spec's words: "Among `class_scores`, take `max_score`" — the
maximum among the class scores only, which are the entries from index 5 on. -/
def spec_max_class_score (row : List ℚ) : ℚ :=
  match row.drop 5 with
  | [] => 0
  | a :: rest => rest.foldl max a

/-- Per the spec's words: decoding with `x_factor = img_width/640`,
`y_factor = img_height/640` computed from the *original (unletterboxed)*
image dimensions. -/
def spec_decode_row (origWidth origHeight : Nat) (row : List ℚ) : Rect :=
  decode_row ((origWidth : ℚ) / 640) ((origHeight : ℚ) / 640) row

/-- Per the spec's words: the box lies fully inside the image bounds on all
four sides. -/
def spec_inside_image (imgWidth imgHeight : Int) (b : Rect) : Prop :=
  0 ≤ b.x ∧ 0 ≤ b.y ∧ b.x + b.width ≤ imgWidth ∧ b.y + b.height ≤ imgHeight

instance (imgWidth imgHeight : Int) (b : Rect) :
    Decidable (spec_inside_image imgWidth imgHeight b) := by
  unfold spec_inside_image
  infer_instance

/-- The raw-tensor row of spec §8 Scenario A:
`(cx=320, cy=320, w=100, h=50, obj_conf=0.9, class_scores=[0.9,0.1])`
padded to the tensor width 10. -/
def scenarioRow : List ℚ := [320, 320, 100, 50, 9/10, 9/10, 1/10, 0, 0, 0]

/-- A row with high objectness but all class scores at `0.1 ≤ 0.25`. -/
def badRow : List ℚ := [320, 320, 100, 50, 1/2, 1/10, 1/10, 1/10, 1/10, 1/10]

/-! ## Image model (cv::core::Mat / image::ImageBuffer) -/

/-- A raster image: dimensions plus a total pixel function.  Pixel values
(`Rgb<u8>` triples) are abstracted as naturals; only equality of pixels is
ever inspected by the code under verification. -/
structure Img where
  width : Nat
  height : Nat
  pix : Nat → Nat → Nat

/-- `ImageBuffer::get_pixel_checked`: `some` exactly when the coordinates are
inside the buffer. -/
def getPixelChecked (img : Img) (x y : Nat) : Option Nat :=
  if x < img.width ∧ y < img.height then some (img.pix x y) else none

/-- `image_conversion::get_blank_buffer` (src/utils/image_conversion.rs lines
7-14): a uniform white buffer with the dimensions of the input. -/
def whitePix : Nat := 16777215

def get_blank_buffer (m : Img) : Img :=
  { width := m.width, height := m.height, pix := fun _ _ => whitePix }

/-- `cv::core::Mat::roi`: a zero-copy sub-rectangle view; OpenCV rejects a
rectangle that is not fully inside the source. -/
def matRoi (img : Img) (x y w h : Int) : Option Img :=
  if 0 ≤ x ∧ 0 ≤ y ∧ 0 ≤ w ∧ 0 ≤ h ∧
      x + w ≤ (img.width : Int) ∧ y + h ≤ (img.height : Int) then
    some { width := w.toNat, height := h.toNat,
           pix := fun i j => img.pix (x.toNat + i) (y.toNat + j) }
  else none

/-- `cv::core::vconcat` of two images: same widths required. -/
def vconcat2 (a b : Img) : Option Img :=
  if a.width = b.width then
    some { width := a.width, height := a.height + b.height,
           pix := fun i j => if j < a.height then a.pix i j else b.pix i (j - a.height) }
  else none

/-- `cv::core::hconcat` of two images: same heights required. -/
def hconcat2 (a b : Img) : Option Img :=
  if a.height = b.height then
    some { width := a.width + b.width, height := a.height,
           pix := fun i j => if i < a.width then a.pix i j else b.pix (i - a.width) j }
  else none

/-! ## Region expander (src/replacer.rs, expand_text_region) -/

inductive DiagOrientation where
  | TopLeftBottomRight
  | TopRightBottomLeft
deriving DecidableEq, Repr

/-- Fuel bound for the corner walks: `2^32` dominates the number of distinct
`u32` states any of the loops can visit before its guard or the bounds check
stops it (each iteration moves the corner one pixel and the loop stops at the
latest when the coordinate leaves the at-most-`2^31`-wide image). -/
def WALK_FUEL : Nat := 4294967296

/-- The top-left walk (src/replacer.rs lines 386-400): step to
`(x-1, y-1)` while both decremented coordinates stay positive (`u32`
arithmetic, wrapping) and the pixel there equals `ori`. -/
def tlWalk (img : Img) (ori : Nat) : Nat → Nat × Nat × Nat → Nat × Nat × Nat
  | 0, st => st
  | fuel + 1, (x, y, len) =>
      if 0 < wsub x 1 ∧ 0 < wsub y 1 then
        match getPixelChecked img (wsub x 1) (wsub y 1) with
        | some p =>
            if p ≠ ori then (x, y, len)
            else tlWalk img ori fuel (wsub x 1, wsub y 1, len + 1)
        | none => (x, y, len)
      else (x, y, len)

/-- The top-right walk (src/replacer.rs lines 402-415).  Note the guard
compares `tr_x` against `old_width` — the box's own width, not the image's. -/
def trWalk (img : Img) (ori oldWidth : Nat) :
    Nat → Nat × Nat × Nat → Nat × Nat × Nat
  | 0, st => st
  | fuel + 1, (x, y, len) =>
      if x < oldWidth ∧ 0 < y then
        match getPixelChecked img (wadd x 1) (wsub y 1) with
        | some p =>
            if p ≠ ori then (x, y, len)
            else trWalk img ori oldWidth fuel (wadd x 1, wsub y 1, len + 1)
        | none => (x, y, len)
      else (x, y, len)

/-- The bottom-left walk (src/replacer.rs lines 417-430).  The guard compares
`bl_y + 1` against `old_height` — the box's own height. -/
def blWalk (img : Img) (ori oldHeight : Nat) :
    Nat → Nat × Nat × Nat → Nat × Nat × Nat
  | 0, st => st
  | fuel + 1, (x, y, len) =>
      if 0 < x ∧ wadd y 1 < oldHeight then
        match getPixelChecked img (wsub x 1) (wadd y 1) with
        | some p =>
            if p ≠ ori then (x, y, len)
            else blWalk img ori oldHeight fuel (wsub x 1, wadd y 1, len + 1)
        | none => (x, y, len)
      else (x, y, len)

/-- The bottom-right walk (src/replacer.rs lines 432-445).  The guard compares
`br_x + 1` and `br_y + 1` against the box's own width and height. -/
def brWalk (img : Img) (ori oldWidth oldHeight : Nat) :
    Nat → Nat × Nat × Nat → Nat × Nat × Nat
  | 0, st => st
  | fuel + 1, (x, y, len) =>
      if wadd x 1 < oldWidth ∧ wadd y 1 < oldHeight then
        match getPixelChecked img (wadd x 1) (wadd y 1) with
        | some p =>
            if p ≠ ori then (x, y, len)
            else brWalk img ori oldWidth oldHeight fuel (wadd x 1, wadd y 1, len + 1)
        | none => (x, y, len)
      else (x, y, len)

/-- `expand_text_region` (src/replacer.rs lines 366-470).  All four walks are
compared against `ori_pixel`, the pixel at the box's original top-left corner.
`none` models the `get_pixel` panic when the seed origin is outside the image.
The coordinates are `i32` values reinterpreted as `u32` (`as u32`), and the
final tuple is cast back to `i32`. -/
def expand_text_region (img : Img) (tlxI tlyI oldWidthI oldHeightI : Int) :
    Option ((Int × Int) × Int × Int × DiagOrientation) :=
  let tlx := i32ToU32 tlxI
  let tly := i32ToU32 tlyI
  let oldWidth := i32ToU32 oldWidthI
  let oldHeight := i32ToU32 oldHeightI
  let trx := wadd tlx oldWidth
  let trY := tly
  let blx := tlx
  let bly := wadd tly oldHeight
  let brx := wadd blx oldWidth
  let bry := bly
  match getPixelChecked img tlx tly with
  | none => none
  | some oriPixel =>
    let tl := tlWalk img oriPixel WALK_FUEL (tlx, tly, 0)
    let tr := trWalk img oriPixel oldWidth WALK_FUEL (trx, trY, 0)
    let bl := blWalk img oriPixel oldHeight WALK_FUEL (blx, bly, 0)
    let br := brWalk img oriPixel oldWidth oldHeight WALK_FUEL (brx, bry, 0)
    if tl.2.2 + br.2.2 < bl.2.2 + tr.2.2 then
      some ((u32ToI32 tl.1, u32ToI32 tl.2.1),
            u32ToI32 (wsub br.1 tl.1), u32ToI32 (wsub br.2.1 tl.2.1),
            DiagOrientation.TopLeftBottomRight)
    else
      some ((u32ToI32 (wsub tr.1 (wsub tr.1 bl.1)), u32ToI32 tr.2.1),
            u32ToI32 (wsub tr.1 bl.1), u32ToI32 (wsub bl.2.1 tr.2.1),
            DiagOrientation.TopRightBottomLeft)

/-- An 8×8 image whose pixels all hold the same value 7: inside it every
diagonal walk of the specification should run until the image edge. -/
def imgUniform : Img := { width := 8, height := 8, pix := fun _ _ => 7 }

/-! ## Compositor (src/replacer.rs, replace_region) -/

/-- `replace_region` (src/replacer.rs lines 480-559): carve the background
into left/top/bottom/right panels around the patch rectangle, then
reassemble top‑patch‑bottom vertically and left‑middle‑right horizontally. -/
def replace_region (background : Img) (region : Img) (x y : Int) : Option Img := do
  let fullWidth : Int := background.width
  let fullHeight : Int := background.height
  let width : Int := region.width
  let height : Int := region.height
  let leftPanel ← matRoi background 0 0 x fullHeight
  let topPanel ← matRoi background x 0 width y
  let bottomPanel ← matRoi background x (y + height) width (fullHeight - (y + height))
  let rightPanel ← matRoi background (x + width) 0 (fullWidth - (x + width)) fullHeight
  let vertTop ← vconcat2 topPanel region
  let verticalPanel ← vconcat2 vertTop bottomPanel
  let horizLeft ← hconcat2 leftPanel verticalPanel
  hconcat2 horizLeft rightPanel

/-! ## Text layout (src/replacer.rs, Replacer::write_text) -/

/-- Rust `str::split(' ')`: split on single spaces, keeping empty pieces. -/
def splitSpace : List Char → List (List Char)
  | [] => [[]]
  | c :: rest =>
    match splitSpace rest with
    | [] => [[]]
    | w :: ws => if c = ' ' then [] :: w :: ws else (c :: w) :: ws

/-- Rust `Vec::join(" ")`. -/
def joinSpace (ws : List (List Char)) : List Char := List.intercalate [' '] ws

/-- Modelled from the spec: the pixel width `drawing::text_size(scale, font, s).0`
reported by the external rusttype/imageproc rasterizer, as an additive
per-character advance-width metric `cw` (the scale chosen for the region is
baked into `cw`). -/
def textWidth (cw : Char → Nat) (s : List Char) : Int := ((s.map cw).sum : Nat)

/-- First-pass accumulator: `(temp_lines, curr_line, curr_line_size)`. -/
structure Pass1State where
  tempLines : List (List Char)
  currLine : List Char
  currLineSize : Int

/-- One iteration of the first wrapping pass (src/replacer.rs lines 212-229).
Note that the first branch taken for the very first word leaves
`curr_line_size` untouched, exactly as the source does. -/
def pass1Step (cw : Char → Nat) (limit : Int) (st : Pass1State) (word : List Char) :
    Pass1State :=
  let textW := textWidth cw word
  let spaceW := textWidth cw [' ']
  if st.currLineSize + textW + spaceW > limit then
    { tempLines := st.tempLines ++ [st.currLine], currLine := word, currLineSize := textW }
  else if st.tempLines = [] ∧ st.currLine = [] then
    { st with currLine := st.currLine ++ word }
  else
    { tempLines := st.tempLines, currLine := st.currLine ++ ' ' :: word,
      currLineSize := st.currLineSize + spaceW + textW }

/-- The first wrapping pass plus the trailing `temp_lines.push(curr_line)`
(src/replacer.rs lines 212-236). -/
def pass1 (cw : Char → Nat) (limit : Int) (words : List (List Char)) :
    List (List Char) :=
  let fin := words.foldl (pass1Step cw limit)
    { tempLines := [], currLine := [], currLineSize := 0 }
  fin.tempLines ++ [fin.currLine]

/-- The hyphenation loop for a single over-long word (src/replacer.rs lines
262-280): move the last character to the front of the continuation line while
the remainder plus a hyphen is still too wide.  `none` models the
`expect` panic when popping from the empty character vector. -/
def hyphenLoop (cw : Char → Nat) (limit : Int) :
    Nat → List Char → List Char → Option (List Char × List Char)
  | 0, _, _ => none
  | fuel + 1, chars, newLine =>
      if textWidth cw chars + textWidth cw ['-'] > limit then
        match chars.getLast? with
        | none => none
        | some c => hyphenLoop cw limit fuel chars.dropLast (c :: newLine)
      else some (chars, newLine)

/-- The word-moving loop for an over-long multi-word line (src/replacer.rs
lines 293-309). -/
def wordsLoop (cw : Char → Nat) (limit : Int) :
    Nat → List (List Char) → List (List Char) →
    Option (List (List Char) × List (List Char))
  | 0, _, _ => none
  | fuel + 1, words, newLine =>
      if textWidth cw (joinSpace words) > limit then
        match words.getLast? with
        | none => none
        | some word => wordsLoop cw limit fuel words.dropLast (word :: newLine)
      else some (words, newLine)

/-- Second-pass treatment of one line (src/replacer.rs lines 244-325),
returning the kept line(s) and the optional continuation line appended after
them.  The loops start with fuel `length + 1`, which is enough for every
reachable iteration, so the model agrees with the Rust loops. -/
def pass2Line (cw : Char → Nat) (limit : Int) (line : List Char) :
    Option (List (List Char) × Option (List Char)) :=
  if textWidth cw line > limit then
    if (splitSpace line).length = 1 then
      match hyphenLoop cw limit (line.length + 1) line [] with
      | none => none
      | some (orig, newLine) =>
          some ([orig ++ ['-']], if newLine = [] then none else some newLine)
    else
      match wordsLoop cw limit ((splitSpace line).length + 1) (splitSpace line) [] with
      | none => none
      | some (orig, newLine) =>
          some ([joinSpace orig], if newLine = [] then none else some (joinSpace newLine))
  else if line ≠ [] then some ([line], none)
  else some ([], none)

/-- The line-width budget used by all wrapping tests
(src/replacer.rs lines 144, 215-217, 248, 268-269, 298-299):
`stop_x = width - width/16` (`u32` division), then
`stop_x as i32 - padding as i32`. -/
def lineLimit (width padding : Nat) : Int :=
  ((width - width / 16 : Nat) : Int) - (padding : Int)

/-- Monadic map over `Option`, short-circuiting on the first `none`. -/
def optionMapM {α β : Type} (f : α → Option β) : List α → Option (List β)
  | [] => some []
  | a :: l =>
    match f a, optionMapM f l with
    | some b, some bs => some (b :: bs)
    | _, _ => none

/-- The complete two-pass wrapping pipeline for one text string: split on
spaces, greedy accumulation, then per-line splitting.  Each output group is
`(kept lines, optional continuation line)`; the rendered line list is the
concatenation `kept ++ continuation` over all groups, in order. -/
def wrapLines (cw : Char → Nat) (limit : Int) (text : List Char) :
    Option (List (List (List Char) × Option (List Char))) :=
  optionMapM (pass2Line cw limit) (pass1 cw limit (splitSpace text))

/-! ## Replacer (src/replacer.rs, struct Replacer) -/

structure Replacer where
  originalTextRegions : List Img
  text : Option (List (List Char))
  origins : List (Int × Int)
  originalImage : Img
  padding : Nat

def exceptOfOption {α : Type} (msg : String) : Option α → Except String α
  | some a => Except.ok a
  | none => Except.error msg

/-- `Replacer::get_blank_mats` (src/replacer.rs lines 89-110): per region,
expand against the original image, and pair a blank buffer sized like the
*original* region with the expanded origin and diagonal tag. -/
def get_blank_mats (r : Replacer) :
    Option (List (Img × (Int × Int) × DiagOrientation)) :=
  (r.origins.zip r.originalTextRegions).mapM (fun p => do
    let e ← expand_text_region r.originalImage p.1.1 p.1.2
      (p.2.width : Int) (p.2.height : Int)
    pure (get_blank_buffer p.2, e.1, e.2.2.2))

/-- `Replacer::clean_page` (src/replacer.rs lines 57-71): splice every blank
mat into (a copy of) the original image, sequentially. -/
def clean_page (r : Replacer) : Option Img := do
  let blankMats ← get_blank_mats r
  blankMats.foldlM (fun img m => replace_region img m.1 m.2.1.1 m.2.1.2)
    r.originalImage

/-- `Replacer::write_text` (src/replacer.rs lines 115-358): errors out first
when no translated text is stored; otherwise lays out each translation on a
blank canvas sized like the expanded region.  The glyph rasterization
(`drawing::draw_text_mut`, external imageproc/rusttype code) preserves the
canvas dimensions and is not modelled beyond that; the wrapping passes are
`wrapLines`. -/
def write_text (cw : Char → Nat) (r : Replacer) :
    Except String (List (Img × (Int × Int) × DiagOrientation)) :=
  match r.text with
  | none => Except.error "Translated text is missing"
  | some translatedText =>
      translatedText.enum.mapM (fun p => do
        let xy ← exceptOfOption "index out of bounds" (r.origins.get? p.1)
        let region ← exceptOfOption "index out of bounds"
          (r.originalTextRegions.get? p.1)
        let e ← exceptOfOption "panicked in expand_text_region"
          (expand_text_region r.originalImage xy.1 xy.2
            (region.width : Int) (region.height : Int))
        let regionRoi ← exceptOfOption "roi out of range"
          (matRoi r.originalImage e.1.1 e.1.2 e.2.1 e.2.2.1)
        let canvas := get_blank_buffer regionRoi
        let _groups ← exceptOfOption "panicked while splitting a line"
          (wrapLines cw (lineLimit canvas.width r.padding) p.2)
        pure (canvas, (e.1.1, e.1.2), e.2.2.2))

/-- `Replacer::replace_text_regions` (src/replacer.rs lines 73-87):
`write_text` first (so a missing translation aborts before any image work),
then splice each rendered mat sequentially. -/
def replace_text_regions (cw : Char → Nat) (r : Replacer) : Except String Img := do
  let translatedMats ← write_text cw r
  translatedMats.foldlM (fun img m =>
    exceptOfOption "replace_region failed" (replace_region img m.1 m.2.1.1 m.2.1.2))
    r.originalImage

/-- A concrete replacer with `text = none`: one 2×1 region at `(1, 1)` inside
a uniform 4×4 page. -/
def replacerExample : Replacer :=
  { originalTextRegions := [{ width := 2, height := 1, pix := fun _ _ => 3 }]
    text := none
    origins := [(1, 1)]
    originalImage := { width := 4, height := 4, pix := fun _ _ => 3 }
    padding := 10 }

/-- Constant per-character width 1: a concrete font-metric model. -/
def cwOne : Char → Nat := fun _ => 1

/-- Constant per-character width 5: a concrete font-metric model. -/
def cwFive : Char → Nat := fun _ => 5

/-- A 25-character unbroken word. -/
def longWord : List Char := List.replicate 25 'a'

/-! ### Detection decoder lemmas -/

lemma format_image_dims_eq (cols rows : Nat) :
    format_image_dims cols rows = (max cols rows, max cols rows) := by
  unfold format_image_dims
  rcases max_choice cols rows with h | h <;> simp only [h]
  · by_cases hcr : cols = rows
    · simp [hcr]
    · have h1 : ¬(cols = rows ∧ cols ≠ cols) := by simp
      simp [h1, hcr]
  · by_cases hcr : rows = cols
    · simp [hcr]
    · have h2 : rows ≠ cols := hcr
      simp [h2]

/-! ## Claim C1 -/

/-- C1 (code_bug): the decoder keeps a candidate row whose maximum *class*
score is `0.1 ≤ 0.25`, because `classes_scores` is `row.to_vec()` — the whole
ten-entry row including `cx`, `cy`, `w`, `h` and the objectness — so the
`> 0.25` test is applied to the row maximum (here `cx = 320`) and is vacuous
whenever the objectness test already passed.  The claim (and spec §4.1
step 2 / §8) requires such a row to be rejected. -/
theorem detection_filter_keeps_low_class_score :
    detector_candidates 640 640 [badRow] =
      [({ x := 270, y := 295, width := 100, height := 50 }, 1/2)] ∧
    badRow.getD 4 0 ≥ 2/5 ∧
    spec_max_class_score badRow ≤ 1/4 := by
  refine ⟨?_, by norm_num [badRow], by norm_num [badRow, spec_max_class_score]⟩
  norm_num [detector_candidates, run_inference_factors, format_image_dims,
    get_detections_candidates, badRow, listArgmax, listArgmaxAux, decode_row, truncQ]

/-! ## Claim C3 -/

/-- C3 counterexample: with a `100×100` image and padding `10`, the box
`(60, 20, 50, 20)` satisfies the code's four conditions, so it is padded to
`(50, 10, 70, 40)`, whose right edge `50 + 70 = 120` lies outside the image —
refuting "padding is added only if the padded box lies fully inside the image
bounds on all four sides". -/
theorem pad_box_pads_outside_bounds :
    pad_box 10 100 100 { x := 60, y := 20, width := 50, height := 20 } =
      { x := 50, y := 10, width := 70, height := 40 } ∧
    ¬ spec_inside_image 100 100
        (pad_box 10 100 100 { x := 60, y := 20, width := 50, height := 20 }) := by
  decide

/-- C3 amended: the padding decision is all-or-nothing, but its condition is
`width + 2p < imgWidth ∧ height + 2p < imgHeight ∧ x - p > 0 ∧ y - p > 0`
(which does not imply, nor is implied by, the padded box being fully inside
the image): if the condition holds the box is padded symmetrically by `p`,
otherwise it is returned completely unchanged — never clamped. -/
theorem pad_box_all_or_nothing (p imgWidth imgHeight : Int) (b : Rect) :
    (b.width + p * 2 < imgWidth ∧ b.height + p * 2 < imgHeight ∧
        b.x - p > 0 ∧ b.y - p > 0 →
      pad_box p imgWidth imgHeight b =
        { x := b.x - p, y := b.y - p, width := b.width + p * 2, height := b.height + p * 2 }) ∧
    (¬(b.width + p * 2 < imgWidth ∧ b.height + p * 2 < imgHeight ∧
        b.x - p > 0 ∧ b.y - p > 0) →
      pad_box p imgWidth imgHeight b = b) := by
  constructor
  · intro h
    simp only [pad_box]
    rw [if_pos h]
  · intro h
    simp only [pad_box]
    rw [if_neg h]

/-- Witness for `pad_box_all_or_nothing` at concrete inputs: a box whose
condition holds is padded, one whose condition fails is unchanged. -/
theorem pad_box_all_or_nothing_witness :
    pad_box 10 200 200 { x := 30, y := 30, width := 50, height := 20 } =
      { x := 20, y := 20, width := 70, height := 40 } ∧
    pad_box 10 200 200 { x := 5, y := 30, width := 50, height := 20 } =
      { x := 5, y := 30, width := 50, height := 20 } := by
  refine ⟨(pad_box_all_or_nothing 10 200 200 _).1 (by decide),
          (pad_box_all_or_nothing 10 200 200 _).2 (by decide)⟩

/-! ## Claim C5 -/

/-- C5 counterexample: on a non-square `640×320` original image the code's
factors come from the letterboxed square side (`max = 640`), so the decoded
box differs from the claim's formula built on the original dimensions
(`y_factor = 320/640`). -/
theorem decode_factor_counterexample :
    detector_decode 640 320 scenarioRow =
      { x := 270, y := 295, width := 100, height := 50 } ∧
    spec_decode_row 640 320 scenarioRow =
      { x := 270, y := 147, width := 100, height := 25 } ∧
    detector_decode 640 320 scenarioRow ≠ spec_decode_row 640 320 scenarioRow := by
  have h1 : detector_decode 640 320 scenarioRow =
      { x := 270, y := 295, width := 100, height := 50 } := by
    norm_num [detector_decode, run_inference_factors, format_image_dims,
      scenarioRow, decode_row, truncQ]
  have h2 : spec_decode_row 640 320 scenarioRow =
      { x := 270, y := 147, width := 100, height := 25 } := by
    norm_num [spec_decode_row, scenarioRow, decode_row, truncQ]
  refine ⟨h1, h2, ?_⟩
  rw [h1, h2]
  intro h
  have := congrArg Rect.y h
  simp at this

/-- C5 amended: both factors equal `max(img_width, img_height) / 640` — the
side of the letterboxed square image that `get_detections` receives — and the
decoding formula is as claimed (`left = (cx - 0.5w)·f`, `top = (cy - 0.5h)·f`,
`width = w·f`, `height = h·f`, truncated toward zero).  In particular spec §8
Scenario A holds: on a `640×640` image the scenario row decodes to
`(270, 295, 100, 50)`. -/
theorem decode_uses_letterbox_factors :
    (∀ (origWidth origHeight : Nat) (cx cy w h a b c d e f : ℚ),
      detector_decode origWidth origHeight [cx, cy, w, h, a, b, c, d, e, f] =
        { x := truncQ ((cx - 1/2 * w) * ((max origWidth origHeight : Nat) : ℚ) / 640)
          y := truncQ ((cy - 1/2 * h) * ((max origWidth origHeight : Nat) : ℚ) / 640)
          width := truncQ (w * ((max origWidth origHeight : Nat) : ℚ) / 640)
          height := truncQ (h * ((max origWidth origHeight : Nat) : ℚ) / 640) }) ∧
    detector_decode 640 640 scenarioRow =
      { x := 270, y := 295, width := 100, height := 50 } := by
  constructor
  · intro origWidth origHeight cx cy w h a b c d e f
    simp only [detector_decode, run_inference_factors, format_image_dims_eq,
      decode_row, List.getD]
    norm_num [mul_div_assoc]
  · norm_num [detector_decode, run_inference_factors, format_image_dims,
      scenarioRow, decode_row, truncQ]

/-! ### Machine-integer lemmas -/

lemma wadd_small (a b : Nat) (h : a + b < U32MOD) : wadd a b = a + b :=
  Nat.mod_eq_of_lt h

lemma wsub_eq_sub (a b : Nat) (hb : b ≤ a) (ha : a < U32MOD) : wsub a b = a - b := by
  have hbM : b < U32MOD := lt_of_le_of_lt hb ha
  unfold wsub
  rw [Nat.mod_eq_of_lt ha, Nat.mod_eq_of_lt hbM]
  have h1 : a + (U32MOD - b) = (a - b) + U32MOD := by omega
  rw [h1, Nat.add_mod_right]
  exact Nat.mod_eq_of_lt (by omega)

lemma wsub_zero_one : wsub 0 1 = U32MOD - 1 := by decide

lemma i32ToU32_of_nonneg (n : Int) (h0 : 0 ≤ n) (h1 : n < (U32MOD : Int)) :
    i32ToU32 n = n.toNat := by
  unfold i32ToU32
  rw [Int.emod_eq_of_lt h0 h1]

lemma u32ToI32_small (n : Nat) (h : n < 2147483648) : u32ToI32 n = (n : Int) := by
  unfold u32ToI32
  rw [if_pos h]

/-! ### Walk lemmas -/

lemma tlWalk_guard_false (img : Img) (ori fuel x y len : Nat)
    (h : ¬(0 < wsub x 1 ∧ 0 < wsub y 1)) :
    tlWalk img ori fuel (x, y, len) = (x, y, len) := by
  cases fuel with
  | zero => rfl
  | succ n => simp only [tlWalk, if_neg h]

lemma tlWalk_stop_oob (img : Img) (ori fuel x y len : Nat)
    (h : getPixelChecked img (wsub x 1) (wsub y 1) = none) :
    tlWalk img ori fuel (x, y, len) = (x, y, len) := by
  cases fuel with
  | zero => rfl
  | succ n =>
      simp only [tlWalk, h]
      split <;> rfl

lemma trWalk_guard_false (img : Img) (ori oldWidth fuel x y len : Nat)
    (h : ¬(x < oldWidth ∧ 0 < y)) :
    trWalk img ori oldWidth fuel (x, y, len) = (x, y, len) := by
  cases fuel with
  | zero => rfl
  | succ n => simp only [trWalk, if_neg h]

lemma blWalk_guard_false (img : Img) (ori oldHeight fuel x y len : Nat)
    (h : ¬(0 < x ∧ wadd y 1 < oldHeight)) :
    blWalk img ori oldHeight fuel (x, y, len) = (x, y, len) := by
  cases fuel with
  | zero => rfl
  | succ n => simp only [blWalk, if_neg h]

lemma brWalk_guard_false (img : Img) (ori oldWidth oldHeight fuel x y len : Nat)
    (h : ¬(wadd x 1 < oldWidth ∧ wadd y 1 < oldHeight)) :
    brWalk img ori oldWidth oldHeight fuel (x, y, len) = (x, y, len) := by
  cases fuel with
  | zero => rfl
  | succ n => simp only [brWalk, if_neg h]

/-- Inside an image narrower than `2^32` in both dimensions, a top-left corner
at or adjacent to the image boundary yields a zero-length run: either the
decremented coordinate is no longer positive, or the wrapped coordinate
`2^32 - 1` fails the bounds check of `get_pixel_checked`. -/
lemma tlWalk_zero_at_boundary (img : Img) (ori x y : Nat)
    (hW : img.width < U32MOD) (hH : img.height < U32MOD)
    (hxy : x ≤ 1 ∨ y ≤ 1) :
    tlWalk img ori WALK_FUEL (x, y, 0) = (x, y, 0) := by
  have hwrap : U32MOD - 1 = 4294967295 := by decide
  rcases hxy with hx | hy
  · interval_cases x
    · by_cases hg : 0 < wsub 0 1 ∧ 0 < wsub y 1
      · apply tlWalk_stop_oob
        unfold getPixelChecked
        rw [if_neg]
        intro hin
        rw [wsub_zero_one, hwrap] at hin
        have := hin.1
        unfold U32MOD at hW
        omega
      · exact tlWalk_guard_false img ori _ 0 y 0 hg
    · apply tlWalk_guard_false
      intro hin
      have := hin.1
      rw [wsub_eq_sub 1 1 (le_refl 1) (by decide)] at this
      omega
  · interval_cases y
    · by_cases hg : 0 < wsub x 1 ∧ 0 < wsub 0 1
      · apply tlWalk_stop_oob
        unfold getPixelChecked
        rw [if_neg]
        intro hin
        rw [wsub_zero_one, hwrap] at hin
        have := hin.2
        unfold U32MOD at hH
        omega
      · exact tlWalk_guard_false img ori _ x 0 0 hg
    · apply tlWalk_guard_false
      intro hin
      have := hin.2
      rw [wsub_eq_sub 1 1 (le_refl 1) (by decide)] at this
      omega

/-- For a seed box fully inside an `i32`-dimensioned image, the three guards
comparing against the box's own dimensions are false on entry, the decision
always picks the anti-diagonal pair, and the returned rectangle is exactly
the seed box. -/
lemma expand_eq_seed (img : Img) (x y w h : Int)
    (hx : 0 ≤ x) (hy : 0 ≤ y) (hw : 0 < w) (hh : 0 < h)
    (hxw : x + w ≤ (img.width : Int)) (hyh : y + h ≤ (img.height : Int))
    (hW : (img.width : Int) < 2147483648) (hH : (img.height : Int) < 2147483648) :
    expand_text_region img x y w h =
      some ((x, y), w, h, DiagOrientation.TopRightBottomLeft) := by
  have hWn : img.width < 2147483648 := by exact_mod_cast hW
  have hHn : img.height < 2147483648 := by exact_mod_cast hH
  have hxI : x < (U32MOD : Int) := by unfold U32MOD; omega
  have hyI : y < (U32MOD : Int) := by unfold U32MOD; omega
  have hwI : w < (U32MOD : Int) := by unfold U32MOD; omega
  have hhI : h < (U32MOD : Int) := by unfold U32MOD; omega
  have hux : i32ToU32 x = x.toNat := i32ToU32_of_nonneg x hx hxI
  have huy : i32ToU32 y = y.toNat := i32ToU32_of_nonneg y hy hyI
  have huw : i32ToU32 w = w.toNat := i32ToU32_of_nonneg w (le_of_lt hw) hwI
  have huh : i32ToU32 h = h.toNat := i32ToU32_of_nonneg h (le_of_lt hh) hhI
  have hxwN : x.toNat + w.toNat ≤ img.width := by omega
  have hyhN : y.toNat + h.toNat ≤ img.height := by omega
  have hxwM : x.toNat + w.toNat < U32MOD := by unfold U32MOD; omega
  have hyhM : y.toNat + h.toNat < U32MOD := by unfold U32MOD; omega
  have hpix : getPixelChecked img x.toNat y.toNat =
      some (img.pix x.toNat y.toNat) := by
    unfold getPixelChecked
    rw [if_pos]
    constructor <;> omega
  have hwadd_xw : wadd x.toNat w.toNat = x.toNat + w.toNat := wadd_small _ _ hxwM
  have hwadd_yh : wadd y.toNat h.toNat = y.toNat + h.toNat := wadd_small _ _ hyhM
  have htr : trWalk img (img.pix x.toNat y.toNat) w.toNat WALK_FUEL
      (wadd x.toNat w.toNat, y.toNat, 0) = (wadd x.toNat w.toNat, y.toNat, 0) := by
    apply trWalk_guard_false
    rw [hwadd_xw]
    intro hin
    omega
  have hbl : blWalk img (img.pix x.toNat y.toNat) h.toNat WALK_FUEL
      (x.toNat, wadd y.toNat h.toNat, 0) = (x.toNat, wadd y.toNat h.toNat, 0) := by
    apply blWalk_guard_false
    intro hin
    have h2 := hin.2
    rw [hwadd_yh] at h2
    rw [wadd_small _ _ (by unfold U32MOD; omega)] at h2
    omega
  have hbr : brWalk img (img.pix x.toNat y.toNat) w.toNat h.toNat WALK_FUEL
      (wadd x.toNat w.toNat, wadd y.toNat h.toNat, 0) =
      (wadd x.toNat w.toNat, wadd y.toNat h.toNat, 0) := by
    apply brWalk_guard_false
    intro hin
    have h1 := hin.1
    rw [hwadd_xw] at h1
    rw [wadd_small _ _ (by unfold U32MOD; omega)] at h1
    omega
  have hnw : wsub (wadd x.toNat w.toNat) x.toNat = w.toNat := by
    rw [hwadd_xw, wsub_eq_sub _ _ (Nat.le_add_right _ _) hxwM]
    omega
  have hnh : wsub (wadd y.toNat h.toNat) y.toNat = h.toNat := by
    rw [hwadd_yh, wsub_eq_sub _ _ (Nat.le_add_right _ _) hyhM]
    omega
  have hox : wsub (wadd x.toNat w.toNat) w.toNat = x.toNat := by
    rw [hwadd_xw, wsub_eq_sub _ _ (Nat.le_add_left _ _) hxwM]
    omega
  simp only [expand_text_region, hux, huy, huw, huh, hpix, htr, hbl, hbr]
  rw [if_neg (by simp)]
  rw [hnw, hnh, hox]
  rw [u32ToI32_small x.toNat (by omega), u32ToI32_small y.toNat (by omega),
    u32ToI32_small w.toNat (by omega), u32ToI32_small h.toNat (by omega)]
  rw [Int.toNat_of_nonneg hx, Int.toNat_of_nonneg hy,
    Int.toNat_of_nonneg (le_of_lt hw), Int.toNat_of_nonneg (le_of_lt hh)]

/-! ## Claim C2 -/

/-- C2 (code_bug): in a uniform 8×8 image (every pixel equal), the top-right
corner of the seed box `(3, 3, 2, 2)` sits at `(5, 3)` and the pixel at the
next diagonal position `(6, 2)` equals the corner's pixel value, so by the
claim the walk must advance; but the loop guard compares `tr_x < old_width`
(`5 < 2`), so the walk stops at once with a zero-length run and the whole
expansion returns the seed box unchanged. -/
theorem expand_top_right_walk_never_advances :
    getPixelChecked imgUniform 6 2 = some 7 ∧
    imgUniform.pix 5 3 = 7 ∧
    trWalk imgUniform 7 (i32ToU32 2) WALK_FUEL (5, 3, 0) = (5, 3, 0) ∧
    expand_text_region imgUniform 3 3 2 2 =
      some ((3, 3), 2, 2, DiagOrientation.TopRightBottomLeft) := by
  decide

/-! ## Claim C6 -/

/-- C6 (confirmed): whenever the seed origin's pixel exists (no panic), the
expansion compares `tl_len + br_len` with `bl_len + tr_len`; the main
diagonal is chosen exactly when its combined run length is strictly smaller,
the chosen pair's grown corners define the new rectangle, and when the
anti-diagonal pair wins the new top-left is recomputed as
`(tr.x - new_width, tr.y)`.  The tagged orientation always names the pair
whose combined run length is the smaller (≤) one. -/
theorem expand_decision_rule (img : Img) (x y w h : Int) (ori : Nat)
    (tl tr bl br : Nat × Nat × Nat)
    (hpix : getPixelChecked img (i32ToU32 x) (i32ToU32 y) = some ori)
    (htl : tlWalk img ori WALK_FUEL (i32ToU32 x, i32ToU32 y, 0) = tl)
    (htr : trWalk img ori (i32ToU32 w) WALK_FUEL
      (wadd (i32ToU32 x) (i32ToU32 w), i32ToU32 y, 0) = tr)
    (hbl : blWalk img ori (i32ToU32 h) WALK_FUEL
      (i32ToU32 x, wadd (i32ToU32 y) (i32ToU32 h), 0) = bl)
    (hbr : brWalk img ori (i32ToU32 w) (i32ToU32 h) WALK_FUEL
      (wadd (i32ToU32 x) (i32ToU32 w), wadd (i32ToU32 y) (i32ToU32 h), 0) = br) :
    expand_text_region img x y w h =
      (if tl.2.2 + br.2.2 < bl.2.2 + tr.2.2 then
        some ((u32ToI32 tl.1, u32ToI32 tl.2.1),
              u32ToI32 (wsub br.1 tl.1), u32ToI32 (wsub br.2.1 tl.2.1),
              DiagOrientation.TopLeftBottomRight)
      else
        some ((u32ToI32 (wsub tr.1 (wsub tr.1 bl.1)), u32ToI32 tr.2.1),
              u32ToI32 (wsub tr.1 bl.1), u32ToI32 (wsub bl.2.1 tr.2.1),
              DiagOrientation.TopRightBottomLeft)) ∧
    (∀ nx ny nw nh d,
      expand_text_region img x y w h = some ((nx, ny), nw, nh, d) →
      (d = DiagOrientation.TopLeftBottomRight →
        tl.2.2 + br.2.2 < bl.2.2 + tr.2.2) ∧
      (d = DiagOrientation.TopRightBottomLeft →
        bl.2.2 + tr.2.2 ≤ tl.2.2 + br.2.2)) := by
  have hfirst : expand_text_region img x y w h =
      (if tl.2.2 + br.2.2 < bl.2.2 + tr.2.2 then
        some ((u32ToI32 tl.1, u32ToI32 tl.2.1),
              u32ToI32 (wsub br.1 tl.1), u32ToI32 (wsub br.2.1 tl.2.1),
              DiagOrientation.TopLeftBottomRight)
      else
        some ((u32ToI32 (wsub tr.1 (wsub tr.1 bl.1)), u32ToI32 tr.2.1),
              u32ToI32 (wsub tr.1 bl.1), u32ToI32 (wsub bl.2.1 tr.2.1),
              DiagOrientation.TopRightBottomLeft)) := by
    simp only [expand_text_region, hpix, htl, htr, hbl, hbr]
  refine ⟨hfirst, ?_⟩
  intro nx ny nw nh d hsome
  have hcmp := hsome.symm.trans hfirst
  by_cases hc : tl.2.2 + br.2.2 < bl.2.2 + tr.2.2
  · rw [if_pos hc] at hcmp
    simp only [Option.some.injEq, Prod.mk.injEq] at hcmp
    obtain ⟨-, -, -, hd⟩ := hcmp
    constructor
    · intro _
      exact hc
    · intro hd2
      rw [hd2] at hd
      cases hd
  · rw [if_neg hc] at hcmp
    simp only [Option.some.injEq, Prod.mk.injEq] at hcmp
    obtain ⟨-, -, -, hd⟩ := hcmp
    constructor
    · intro hd2
      rw [hd2] at hd
      cases hd
    · intro _
      exact Nat.le_of_not_lt hc

/-- Witness for `expand_decision_rule`: the concrete uniform image and seed
box `(3, 3, 2, 2)`, where the walks give `tl = (1,1,2)`, `tr = (5,3,0)`,
`bl = (3,5,0)`, `br = (5,5,0)`. -/
theorem expand_decision_rule_witness :
    (expand_text_region imgUniform 3 3 2 2 =
      (if (1, 1, 2).2.2 + (5, 5, 0).2.2 < (3, 5, 0).2.2 + (5, 3, 0).2.2 then
        some ((u32ToI32 (1, 1, 2).1, u32ToI32 (1, 1, 2).2.1),
              u32ToI32 (wsub (5, 5, 0).1 (1, 1, 2).1),
              u32ToI32 (wsub (5, 5, 0).2.1 (1, 1, 2).2.1),
              DiagOrientation.TopLeftBottomRight)
      else
        some ((u32ToI32 (wsub (5, 3, 0).1 (wsub (5, 3, 0).1 (3, 5, 0).1)),
              u32ToI32 (5, 3, 0).2.1),
              u32ToI32 (wsub (5, 3, 0).1 (3, 5, 0).1),
              u32ToI32 (wsub (3, 5, 0).2.1 (5, 3, 0).2.1),
              DiagOrientation.TopRightBottomLeft))) ∧
    (∀ nx ny nw nh d,
      expand_text_region imgUniform 3 3 2 2 = some ((nx, ny), nw, nh, d) →
      (d = DiagOrientation.TopLeftBottomRight →
        (1, 1, 2).2.2 + (5, 5, 0).2.2 < (3, 5, 0).2.2 + (5, 3, 0).2.2) ∧
      (d = DiagOrientation.TopRightBottomLeft →
        (3, 5, 0).2.2 + (5, 3, 0).2.2 ≤ (1, 1, 2).2.2 + (5, 5, 0).2.2)) :=
  expand_decision_rule imgUniform 3 3 2 2 7 (1, 1, 2) (5, 3, 0) (3, 5, 0) (5, 5, 0)
    (by decide) (by decide) (by decide) (by decide) (by decide)

/-! ## Claim C7 -/

/-- C7 (confirmed): for a seed box fully inside an `i32`-dimensioned image
the expansion returns a rectangle (here: exactly the seed box, since the
three guards compared against the box's own dimensions stop immediately)
that stays inside the image bounds and whose area is at least the seed's. -/
theorem expand_within_bounds_and_area (img : Img) (x y w h : Int)
    (hx : 0 ≤ x) (hy : 0 ≤ y) (hw : 0 < w) (hh : 0 < h)
    (hxw : x + w ≤ (img.width : Int)) (hyh : y + h ≤ (img.height : Int))
    (hW : (img.width : Int) < 2147483648) (hH : (img.height : Int) < 2147483648) :
    ∃ nx ny nw nh d,
      expand_text_region img x y w h = some ((nx, ny), nw, nh, d) ∧
      0 ≤ nx ∧ 0 ≤ ny ∧ nx + nw ≤ (img.width : Int) ∧ ny + nh ≤ (img.height : Int) ∧
      w * h ≤ nw * nh :=
  ⟨x, y, w, h, DiagOrientation.TopRightBottomLeft,
    expand_eq_seed img x y w h hx hy hw hh hxw hyh hW hH,
    hx, hy, hxw, hyh, le_refl _⟩

/-- Witness for `expand_within_bounds_and_area` at the uniform image and the
seed box `(3, 3, 2, 2)`. -/
theorem expand_within_bounds_and_area_witness :
    ((0:Int) ≤ 3 ∧ (0:Int) ≤ 3 ∧ (0:Int) < 2 ∧ (0:Int) < 2 ∧
      (3:Int) + 2 ≤ (imgUniform.width : Int) ∧ (3:Int) + 2 ≤ (imgUniform.height : Int) ∧
      (imgUniform.width : Int) < 2147483648 ∧ (imgUniform.height : Int) < 2147483648) ∧
    (∃ nx ny nw nh d,
      expand_text_region imgUniform 3 3 2 2 = some ((nx, ny), nw, nh, d) ∧
      0 ≤ nx ∧ 0 ≤ ny ∧ nx + nw ≤ (imgUniform.width : Int) ∧
      ny + nh ≤ (imgUniform.height : Int) ∧ (2:Int) * 2 ≤ nw * nh) :=
  ⟨by decide,
    expand_within_bounds_and_area imgUniform 3 3 2 2 (by decide) (by decide)
      (by decide) (by decide) (by decide) (by decide) (by decide) (by decide)⟩

/-! ## Claim C8 -/

/-- C8 (confirmed, for the compiled release semantics where `u32` arithmetic
wraps): for a seed box inside the image whose top-left origin is at or
adjacent to the boundary (`x ≤ 1` or `y ≤ 1`, including `x = 0` / `y = 0`),
the top-left walk stops immediately with a zero-length run — either its
guard fails, or the wrapped coordinate `2^32 - 1` fails the bounds check —
and the expansion returns the seed box as a normal (`some`) result. -/
theorem expand_boundary_zero_run (img : Img) (x y w h : Int)
    (hx : 0 ≤ x) (hy : 0 ≤ y) (hw : 0 < w) (hh : 0 < h)
    (hxw : x + w ≤ (img.width : Int)) (hyh : y + h ≤ (img.height : Int))
    (hW : (img.width : Int) < 2147483648) (hH : (img.height : Int) < 2147483648)
    (hedge : x ≤ 1 ∨ y ≤ 1) :
    (∀ ori, tlWalk img ori WALK_FUEL (i32ToU32 x, i32ToU32 y, 0) =
      (i32ToU32 x, i32ToU32 y, 0)) ∧
    expand_text_region img x y w h =
      some ((x, y), w, h, DiagOrientation.TopRightBottomLeft) := by
  have hWn : img.width < 2147483648 := by exact_mod_cast hW
  have hHn : img.height < 2147483648 := by exact_mod_cast hH
  constructor
  · intro ori
    apply tlWalk_zero_at_boundary img ori _ _ (by unfold U32MOD; omega)
      (by unfold U32MOD; omega)
    rcases hedge with hex | hey
    · left
      rw [i32ToU32_of_nonneg x hx (by unfold U32MOD; omega)]
      omega
    · right
      rw [i32ToU32_of_nonneg y hy (by unfold U32MOD; omega)]
      omega
  · exact expand_eq_seed img x y w h hx hy hw hh hxw hyh hW hH

/-- Witness for `expand_boundary_zero_run`: seed box at origin `(0, 3)` in
the uniform image. -/
theorem expand_boundary_zero_run_witness :
    ((0:Int) ≤ 0 ∧ (0:Int) ≤ 3 ∧ (0:Int) < 2 ∧ (0:Int) < 2 ∧
      (0:Int) + 2 ≤ (imgUniform.width : Int) ∧ (3:Int) + 2 ≤ (imgUniform.height : Int) ∧
      (imgUniform.width : Int) < 2147483648 ∧ (imgUniform.height : Int) < 2147483648 ∧
      ((0:Int) ≤ 1 ∨ (3:Int) ≤ 1)) ∧
    ((∀ ori, tlWalk imgUniform ori WALK_FUEL (i32ToU32 0, i32ToU32 3, 0) =
        (i32ToU32 0, i32ToU32 3, 0)) ∧
      expand_text_region imgUniform 0 3 2 2 =
        some ((0, 3), 2, 2, DiagOrientation.TopRightBottomLeft)) :=
  ⟨by decide,
    expand_boundary_zero_run imgUniform 0 3 2 2 (by decide) (by decide) (by decide)
      (by decide) (by decide) (by decide) (by decide) (by decide)
      (Or.inl (by decide))⟩

/-! ### Compositor lemmas -/

lemma matRoi_spec (img : Img) (x y w h : Int)
    (h1 : 0 ≤ x) (h2 : 0 ≤ y) (h3 : 0 ≤ w) (h4 : 0 ≤ h)
    (h5 : x + w ≤ (img.width : Int)) (h6 : y + h ≤ (img.height : Int)) :
    matRoi img x y w h =
      some { width := w.toNat, height := h.toNat,
             pix := fun i j => img.pix (x.toNat + i) (y.toNat + j) } := by
  unfold matRoi
  rw [if_pos ⟨h1, h2, h3, h4, h5, h6⟩]

lemma vconcat2_spec (a b : Img) (h : a.width = b.width) :
    vconcat2 a b =
      some { width := a.width, height := a.height + b.height,
             pix := fun i j => if j < a.height then a.pix i j else b.pix i (j - a.height) } := by
  unfold vconcat2
  rw [if_pos h]

lemma hconcat2_spec (a b : Img) (h : a.height = b.height) :
    hconcat2 a b =
      some { width := a.width + b.width, height := a.height,
             pix := fun i j => if i < a.width then a.pix i j else b.pix (i - a.width) j } := by
  unfold hconcat2
  rw [if_pos h]

/-- Full characterization of a valid `replace_region` call: it succeeds, the
output has the background's dimensions, every pixel outside the patch
rectangle is the background's pixel, and every pixel inside is the patch's. -/
lemma replace_region_spec (bg patch : Img) (x y : Int)
    (hx : 0 ≤ x) (hy : 0 ≤ y)
    (hxw : x + (patch.width : Int) ≤ (bg.width : Int))
    (hyh : y + (patch.height : Int) ≤ (bg.height : Int)) :
    ∃ out, replace_region bg patch x y = some out ∧
      out.width = bg.width ∧ out.height = bg.height ∧
      (∀ i j, (i < x.toNat ∨ x.toNat + patch.width ≤ i ∨
               j < y.toNat ∨ y.toNat + patch.height ≤ j) →
        out.pix i j = bg.pix i j) ∧
      (∀ i j, i < patch.width → j < patch.height →
        out.pix (x.toNat + i) (y.toNat + j) = patch.pix i j) := by
  simp only [replace_region]
  rw [matRoi_spec bg 0 0 x (bg.height : Int) le_rfl le_rfl hx (by omega)
    (by omega) (by omega)]
  simp only [Option.bind_eq_bind, Option.some_bind]
  rw [matRoi_spec bg x 0 (patch.width : Int) y hx le_rfl (by omega) hy
    hxw (by omega)]
  simp only [Option.bind_eq_bind, Option.some_bind]
  rw [matRoi_spec bg x (y + (patch.height : Int)) (patch.width : Int)
    ((bg.height : Int) - (y + (patch.height : Int))) hx (by omega)
    (by omega) (by omega) hxw (by omega)]
  simp only [Option.bind_eq_bind, Option.some_bind]
  rw [matRoi_spec bg (x + (patch.width : Int)) 0
    ((bg.width : Int) - (x + (patch.width : Int))) (bg.height : Int)
    (by omega) le_rfl (by omega) (by omega) (by omega) (by omega)]
  simp only [Option.bind_eq_bind, Option.some_bind]
  rw [vconcat2_spec _ patch (by simp)]
  simp only [Option.bind_eq_bind, Option.some_bind]
  rw [vconcat2_spec _ _ (by simp)]
  simp only [Option.bind_eq_bind, Option.some_bind]
  rw [hconcat2_spec _ _ (by simp; omega)]
  simp only [Option.bind_eq_bind, Option.some_bind]
  rw [hconcat2_spec _ _ (by simp)]
  refine ⟨_, rfl, ?_, ?_, ?_, ?_⟩
  · simp
    omega
  · simp
  · intro i j hout
    simp only []
    split_ifs <;> simp_all <;> (congr 1 <;> omega)
  · intro i j hi hj
    simp only []
    split_ifs <;> simp_all

/-! ## Claim C9 -/

/-- C9 (confirmed): a valid `replace_region` call — both clean and replace
modes go through this single function — produces an image with exactly the
background's dimensions whose pixels outside the patch rectangle equal the
background's; the pixels inside are the patch's.  The clean-mode patch
`get_blank_buffer` has exactly the source region's dimensions and is
uniformly white, so after `clean_page` the replaced sub-region is a uniform
white raster of the exact patch dimensions. -/
theorem compositor_frame (bg patch : Img) (x y : Int)
    (hx : 0 ≤ x) (hy : 0 ≤ y)
    (hxw : x + (patch.width : Int) ≤ (bg.width : Int))
    (hyh : y + (patch.height : Int) ≤ (bg.height : Int)) :
    (∃ out, replace_region bg patch x y = some out ∧
      out.width = bg.width ∧ out.height = bg.height ∧
      (∀ i j, (i < x.toNat ∨ x.toNat + patch.width ≤ i ∨
               j < y.toNat ∨ y.toNat + patch.height ≤ j) →
        out.pix i j = bg.pix i j) ∧
      (∀ i j, i < patch.width → j < patch.height →
        out.pix (x.toNat + i) (y.toNat + j) = patch.pix i j)) ∧
    (get_blank_buffer patch).width = patch.width ∧
    (get_blank_buffer patch).height = patch.height ∧
    (∀ i j, (get_blank_buffer patch).pix i j = whitePix) :=
  ⟨replace_region_spec bg patch x y hx hy hxw hyh, rfl, rfl, fun _ _ => rfl⟩

/-- Witness for `compositor_frame`: a 4×4 background with a 2×1 patch at
`(1, 2)`. -/
theorem compositor_frame_witness :
    ((0:Int) ≤ 1 ∧ (0:Int) ≤ 2 ∧
      (1:Int) + (({ width := 2, height := 1, pix := fun _ _ => 9 } : Img).width : Int) ≤
        ((replacerExample.originalImage).width : Int) ∧
      (2:Int) + (({ width := 2, height := 1, pix := fun _ _ => 9 } : Img).height : Int) ≤
        ((replacerExample.originalImage).height : Int)) ∧
    ((∃ out, replace_region replacerExample.originalImage
        { width := 2, height := 1, pix := fun _ _ => 9 } 1 2 = some out ∧
      out.width = replacerExample.originalImage.width ∧
      out.height = replacerExample.originalImage.height ∧
      (∀ i j, (i < (1:Int).toNat ∨
               (1:Int).toNat + ({ width := 2, height := 1, pix := fun _ _ => 9 } : Img).width ≤ i ∨
               j < (2:Int).toNat ∨
               (2:Int).toNat + ({ width := 2, height := 1, pix := fun _ _ => 9 } : Img).height ≤ j) →
        out.pix i j = replacerExample.originalImage.pix i j) ∧
      (∀ i j, i < ({ width := 2, height := 1, pix := fun _ _ => 9 } : Img).width →
        j < ({ width := 2, height := 1, pix := fun _ _ => 9 } : Img).height →
        out.pix ((1:Int).toNat + i) ((2:Int).toNat + j) =
          ({ width := 2, height := 1, pix := fun _ _ => 9 } : Img).pix i j)) ∧
    (get_blank_buffer { width := 2, height := 1, pix := fun _ _ => 9 }).width =
      ({ width := 2, height := 1, pix := fun _ _ => 9 } : Img).width ∧
    (get_blank_buffer { width := 2, height := 1, pix := fun _ _ => 9 }).height =
      ({ width := 2, height := 1, pix := fun _ _ => 9 } : Img).height ∧
    (∀ i j, (get_blank_buffer { width := 2, height := 1, pix := fun _ _ => 9 }).pix i j =
      whitePix)) :=
  ⟨⟨by decide, by decide, by decide, by decide⟩,
    compositor_frame replacerExample.originalImage
      { width := 2, height := 1, pix := fun _ _ => 9 } 1 2
      (by decide) (by decide) (by decide) (by decide)⟩

/-! ### Layout lemmas -/

lemma mapM_option_some {α β : Type} (f : α → Option β) :
    ∀ (l : List α) (res : List β), optionMapM f l = some res →
      ∀ b ∈ res, ∃ a, f a = some b := by
  intro l
  induction l with
  | nil =>
      intro res h b hb
      simp only [optionMapM] at h
      cases h
      simp at hb
  | cons a l ih =>
      intro res h b hb
      simp only [optionMapM] at h
      cases hfa : f a with
      | none => rw [hfa] at h; cases h
      | some x =>
          cases hml : optionMapM f l with
          | none => rw [hfa, hml] at h; cases h
          | some xs =>
              rw [hfa, hml] at h
              obtain rfl := Option.some.inj h
              rcases List.mem_cons.mp hb with rfl | hbx
              · exact ⟨a, hfa⟩
              · exact ih xs hml b hbx

lemma textWidth_append (cw : Char → Nat) (s t : List Char) :
    textWidth cw (s ++ t) = textWidth cw s + textWidth cw t := by
  simp [textWidth]

lemma hyphenLoop_fits (cw : Char → Nat) (limit : Int) :
    ∀ (fuel : Nat) (chars newLine orig nl : List Char),
      hyphenLoop cw limit fuel chars newLine = some (orig, nl) →
      textWidth cw orig + textWidth cw ['-'] ≤ limit := by
  intro fuel
  induction fuel with
  | zero =>
      intro chars newLine orig nl h
      simp [hyphenLoop] at h
  | succ n ih =>
      intro chars newLine orig nl h
      simp only [hyphenLoop] at h
      by_cases hc : textWidth cw chars + textWidth cw ['-'] > limit
      · rw [if_pos hc] at h
        cases hl : chars.getLast? with
        | none => rw [hl] at h; cases h
        | some c =>
            rw [hl] at h
            exact ih _ _ _ _ h
      · rw [if_neg hc] at h
        obtain ⟨rfl, rfl⟩ : chars = orig ∧ newLine = nl := by
          have := Option.some.inj h
          exact ⟨congrArg Prod.fst this, congrArg Prod.snd this⟩
        omega

lemma wordsLoop_fits (cw : Char → Nat) (limit : Int) :
    ∀ (fuel : Nat) (ws newLine orig nl : List (List Char)),
      wordsLoop cw limit fuel ws newLine = some (orig, nl) →
      textWidth cw (joinSpace orig) ≤ limit := by
  intro fuel
  induction fuel with
  | zero =>
      intro ws newLine orig nl h
      simp [wordsLoop] at h
  | succ n ih =>
      intro ws newLine orig nl h
      simp only [wordsLoop] at h
      by_cases hc : textWidth cw (joinSpace ws) > limit
      · rw [if_pos hc] at h
        cases hl : ws.getLast? with
        | none => rw [hl] at h; cases h
        | some word =>
            rw [hl] at h
            exact ih _ _ _ _ h
      · rw [if_neg hc] at h
        obtain rfl : ws = orig := congrArg Prod.fst (Option.some.inj h)
        omega

lemma pass2Line_kept_fit (cw : Char → Nat) (limit : Int) (line : List Char)
    (g : List (List Char) × Option (List Char))
    (h : pass2Line cw limit line = some g) :
    ∀ s ∈ g.1, textWidth cw s ≤ limit := by
  unfold pass2Line at h
  by_cases h1 : textWidth cw line > limit
  · rw [if_pos h1] at h
    by_cases h2 : (splitSpace line).length = 1
    · rw [if_pos h2] at h
      cases hh : hyphenLoop cw limit (line.length + 1) line [] with
      | none => rw [hh] at h; cases h
      | some pr =>
          obtain ⟨orig, nl⟩ := pr
          rw [hh] at h
          obtain rfl := Option.some.inj h
          intro s hs
          obtain rfl : s = orig ++ ['-'] := by simpa using hs
          rw [textWidth_append]
          exact hyphenLoop_fits cw limit _ _ _ _ _ hh
    · rw [if_neg h2] at h
      cases hh : wordsLoop cw limit ((splitSpace line).length + 1) (splitSpace line) [] with
      | none => rw [hh] at h; cases h
      | some pr =>
          obtain ⟨orig, nl⟩ := pr
          rw [hh] at h
          obtain rfl := Option.some.inj h
          intro s hs
          obtain rfl : s = joinSpace orig := by simpa using hs
          exact wordsLoop_fits cw limit _ _ _ _ _ hh
  · rw [if_neg h1] at h
    by_cases h3 : line ≠ []
    · rw [if_pos h3] at h
      obtain rfl := Option.some.inj h
      intro s hs
      obtain rfl : s = line := by simpa using hs
      omega
    · rw [if_neg h3] at h
      obtain rfl := Option.some.inj h
      intro s hs
      simp at hs

/-! ## Claim C4 -/

/-- C4 counterexample: with a constant advance width of 5 pixels per
character, a region of width 160 and padding 20, the code's budget is
`160 - 160/16 - 20 = 130`, not `160 - 2·20 = 120`.  A single 25-character
word (width 125) is accepted untouched by both passes — the output is that
one line, not hyphenated — yet it is wider than the claimed
`rect_width - 2·padding` budget. -/
theorem line_wider_than_claimed_budget :
    wrapLines cwFive (lineLimit 160 20) longWord = some [([longWord], none)] ∧
    lineLimit 160 20 = 130 ∧
    textWidth cwFive longWord > (160 : Int) - 2 * 20 := by
  refine ⟨by decide, by decide, by decide⟩

/-- C4 amended: the line-width budget is
`rect_width - rect_width/16 - padding` (not `rect_width - 2·padding`), and
under the additive font-metric model every *kept* line of the two-pass
wrapping — everything except the continuation line that a pass-2 split
appends without re-checking — fits in that budget. -/
theorem layout_kept_lines_fit (cw : Char → Nat) (width padding : Nat)
    (text : List Char) (groups : List (List (List Char) × Option (List Char)))
    (hrun : wrapLines cw (lineLimit width padding) text = some groups) :
    ∀ g, g ∈ groups → ∀ s, s ∈ g.1 →
      textWidth cw s ≤ lineLimit width padding := by
  intro g hg s hs
  obtain ⟨line, hline⟩ :=
    mapM_option_some (pass2Line cw (lineLimit width padding)) _ groups hrun g hg
  exact pass2Line_kept_fit _ _ _ _ hline s hs

/-- Witness for `layout_kept_lines_fit`: the two-word text `"ab cd"` with
unit character widths in a width-32, padding-0 region. -/
theorem layout_kept_lines_fit_witness :
    textWidth cwOne ['a', 'b', ' ', 'c', 'd'] ≤ lineLimit 32 0 :=
  layout_kept_lines_fit cwOne 32 0 ['a', 'b', ' ', 'c', 'd']
    [([['a', 'b', ' ', 'c', 'd']], none)] (by decide)
    ([['a', 'b', ' ', 'c', 'd']], (none : Option (List Char))) (by decide)
    ['a', 'b', ' ', 'c', 'd'] (by decide)

/-! ## Claim C10 -/

/-- C10 (confirmed): a `Replacer` whose `text` is `None` makes
`replace_text_regions` fail immediately with "Translated text is missing"
(no image is produced), while `clean_page` never reads the `text` field —
its result is unchanged by any `text` — and does succeed on a concrete
replacer constructed with `text = none`. -/
theorem replacer_missing_text (cw : Char → Nat) (r : Replacer)
    (h : r.text = none) :
    replace_text_regions cw r = Except.error "Translated text is missing" ∧
    (∀ t, clean_page { r with text := t } = clean_page r) ∧
    (clean_page replacerExample).isSome = true := by
  refine ⟨?_, fun t => rfl, by decide⟩
  unfold replace_text_regions write_text
  rw [h]
  rfl

/-- Witness for `replacer_missing_text` at the concrete replacer. -/
theorem replacer_missing_text_witness :
    replace_text_regions cwOne replacerExample =
      Except.error "Translated text is missing" ∧
    (∀ t, clean_page { replacerExample with text := t } =
      clean_page replacerExample) ∧
    (clean_page replacerExample).isSome = true :=
  replacer_missing_text cwOne replacerExample rfl

end Mangatra
